import Mathlib

/-!
Verification development for the e-commerce support-agent backend
(`src/app/main.py`).  The query-matching pipeline (`search_knowledge`,
`generate_response`) and the id-carrying CRUD updates are shallowly
embedded below.

Modelling conventions:
* Python dict entries whose keys may be absent are structures with
  `Option` fields (`none` = key absent).  A direct index `d["k"]` is
  embedded as a match that returns `Except.error ()` when the field is
  `none` (Python raises `KeyError`); `d.get("k", v)` becomes `Option.getD`.
* Python sets of query tokens are `List String`; all uses in the source
  are membership / emptiness tests, for which a token list with possible
  duplicates is observationally equivalent.
* `str.lower` and the regex `[^\w\s]` are modelled over ASCII
  (`Char.toLower`, alphanumeric-or-underscore); the repository only
  manipulates ASCII keywords.
* `price` is a float in the source, model-typed here as cents (`Nat`);
  the `:.2f` rendering becomes exact division/remainder by 100.
* The source file stores its emoji as mojibake codepoint sequences
  (e.g. U+201A U+00C4 U+00A2 for the bullet); the embedding reproduces
  those exact codepoints.
-/

namespace MadishaAgent

/-! ## Query normalizer (`search_knowledge` lines 100-114) -/

/-- Python whitespace recognised by `str.split()` / `\s` (ASCII part). -/
def isPySpace (c : Char) : Bool :=
  c = ' ' || c = '\t' || c = '\n' || c = '\r' || c = '\x0b' || c = '\x0c'

/-- Python `\w` (ASCII part): alphanumeric or underscore. -/
def isWordChar (c : Char) : Bool :=
  c.isAlphanum || c = '_'

/-- Splits a character list on whitespace runs, discarding empty tokens,
as Python `str.split()` does.  `acc` holds the current token reversed. -/
def splitTokens : List Char → List Char → List String
  | [], acc => if acc.isEmpty then [] else [String.mk acc.reverse]
  | c :: cs, acc =>
    if isPySpace c then
      if acc.isEmpty then splitTokens cs []
      else String.mk acc.reverse :: splitTokens cs []
    else splitTokens cs (c :: acc)

/-- `query_clean = re.sub(r'[^\w\s]', '', query.lower())` followed by
`set(query_clean.split())`: the token list of a query. -/
def query_words (q : String) : List String :=
  splitTokens ((q.data.map Char.toLower).filter fun c => isWordChar c || isPySpace c) []

/-- Membership of a word in a keyword list (Python `w in s` on a set). -/
def memW (w : String) (l : List String) : Bool :=
  l.any fun v => v == w

/-- Nonempty intersection of token list and keyword list
(Python `bool(a & b)`). -/
def wordsInter (a b : List String) : Bool :=
  a.any fun w => memW w b

/-- Stop words removed to form `meaningful_words` (line 113). -/
def stop_words : List String :=
  ["a", "an", "the", "is", "are", "do", "does", "what", "how", "can", "i",
   "you", "your", "my", "me", "we", "us", "to", "for", "of", "in", "on",
   "at", "with", "have", "has", "any", "some", "all", "this", "that",
   "these", "those"]

/-- `meaningful_words = query_words - stop_words` (line 114). -/
def meaningful_words (q : String) : List String :=
  (query_words q).filter fun w => !(memW w stop_words)

/-- Greeting words of the matcher (line 117). -/
def greeting_words : List String :=
  ["hi", "hello", "hey", "greetings", "good", "morning", "afternoon", "evening"]

/-- Store-info keywords (line 123). -/
def store_keywords : List String :=
  ["store", "shop", "about", "contact", "email", "phone", "who", "company"]

/-- Product-query keywords (line 128). -/
def product_query_keywords : List String :=
  ["product", "products", "item", "items", "buy", "sell", "selling",
   "offer", "catalog", "catalogue", "inventory", "merchandise"]

/-- Price keywords (line 151). -/
def price_keywords : List String :=
  ["price", "cost", "much", "expensive", "cheap"]

/-- FAQ keywords (line 155). -/
def faq_keywords : List String :=
  ["shipping", "ship", "delivery", "deliver", "return", "refund",
   "exchange", "warranty", "guarantee", "payment", "pay", "order",
   "track", "tracking"]

/-- Policy keywords (line 165). -/
def policy_keywords : List String :=
  ["shipping", "return", "refund", "policy", "policies", "delivery",
   "exchange", "warranty", "guarantee", "terms", "privacy"]

/-! ## Data model (JSON document entries; `Option` = key may be absent) -/

structure ProductE where
  id : Option String
  name : Option String
  description : Option String
  /-- Source type: float; modelled as cents. -/
  price : Option Nat
  category : Option String
  features : Option (List String)
  in_stock : Option Bool
deriving DecidableEq, Repr

structure FAQE where
  id : Option String
  question : Option String
  answer : Option String
  category : Option String
deriving DecidableEq, Repr

structure PolicyE where
  id : Option String
  title : Option String
  content : Option String
  /-- Source field name: `type` (a Lean keyword). -/
  ptype : Option String
deriving DecidableEq, Repr

structure CustomE where
  id : Option String
  title : Option String
  content : Option String
  keywords : Option (List String)
deriving DecidableEq, Repr

structure StoreInfoE where
  name : Option String
  description : Option String
  contact_email : Option String
  contact_phone : Option String
deriving DecidableEq, Repr

def emptyStoreInfo : StoreInfoE := ⟨none, none, none, none⟩

/-- The knowledge document (`memory`).  A missing category key defaults to
`[]` at every access in the matcher (`memory.get(c, [])`), so categories
are plain lists; `store_info` is accessed with `memory.get("store_info")`
which may yield `None`, hence the `Option`. -/
structure Memory where
  products : List ProductE
  faqs : List FAQE
  policies : List PolicyE
  custom_knowledge : List CustomE
  store_info : Option StoreInfoE
deriving DecidableEq, Repr

structure SearchResults where
  products : List ProductE
  faqs : List FAQE
  policies : List PolicyE
  custom_knowledge : List CustomE
  store_info : Option StoreInfoE
deriving DecidableEq, Repr

/-- Python exceptions (`KeyError` on a missing dict key). -/
abbrev Exc (α : Type) : Type := Except Unit α

def lowerStr (s : String) : String :=
  String.mk (s.data.map Char.toLower)

/-- `needle in hay` (substring test): prefix check helper. -/
def isPrefixB : List Char → List Char → Bool
  | [], _ => true
  | _ :: _, [] => false
  | a :: as, b :: bs => a = b && isPrefixB as bs

def substrAux (n : List Char) : List Char → Bool
  | [] => isPrefixB n []
  | c :: cs => isPrefixB n (c :: cs) || substrAux n cs

/-- Python `needle in hay` on strings. -/
def substr (needle hay : String) : Bool :=
  substrAux needle.data hay.data

/-! ## Searchable texts (built with f-strings, then lowercased;
a missing required key raises `KeyError`). -/

/-- Line 140/146: `f"{p['name']} {p['description']} {p.get('category','')}
{' '.join(p.get('features', []))}".lower()`. -/
def productText (p : ProductE) : Exc String :=
  match p.name, p.description with
  | some n, some d =>
    .ok (lowerStr (n ++ " " ++ d ++ " " ++ p.category.getD "" ++ " " ++
      String.intercalate " " (p.features.getD [])))
  | _, _ => .error ()

/-- Line 157: `f"{f['question']} {f['answer']} {f.get('category','')}".lower()`. -/
def faqText (f : FAQE) : Exc String :=
  match f.question, f.answer with
  | some q, some a => .ok (lowerStr (q ++ " " ++ a ++ " " ++ f.category.getD ""))
  | _, _ => .error ()

/-- Line 167: `f"{p['title']} {p['content']} {p.get('type','')}".lower()`. -/
def policyText (p : PolicyE) : Exc String :=
  match p.title, p.content with
  | some t, some c => .ok (lowerStr (t ++ " " ++ c ++ " " ++ p.ptype.getD ""))
  | _, _ => .error ()

/-- Line 175: `f"{k['title']} {k['content']} {' '.join(k.get('keywords', []))}".lower()`. -/
def customText (k : CustomE) : Exc String :=
  match k.title, k.content with
  | some t, some c =>
    .ok (lowerStr (t ++ " " ++ c ++ " " ++ String.intercalate " " (k.keywords.getD [])))
  | _, _ => .error ()

/-! ## The category loops of `search_knowledge` -/

/-- Lines 139-142: the specific-terms product loop. -/
def searchProductsSpecific (terms : List String) : List ProductE → Exc (List ProductE)
  | [] => .ok []
  | p :: ps =>
    match productText p with
    | .error e => .error e
    | .ok t =>
      match searchProductsSpecific terms ps with
      | .error e => .error e
      | .ok rest => .ok (if terms.any (fun w => substr w t) then p :: rest else rest)

/-- Lines 145-152: the general product loop (meaningful-word match, else
price-keyword match appends every product). -/
def searchProductsGeneral (mw qw : List String) : List ProductE → Exc (List ProductE)
  | [] => .ok []
  | p :: ps =>
    match productText p with
    | .error e => .error e
    | .ok t =>
      match searchProductsGeneral mw qw ps with
      | .error e => .error e
      | .ok rest =>
        .ok (if !mw.isEmpty && mw.any (fun w => substr w t) then p :: rest
             else if wordsInter qw price_keywords then p :: rest
             else rest)

/-- The FAQ inclusion condition of lines 159-161, on the faq's text. -/
def faqCond (mw qw : List String) (t : String) : Bool :=
  (!mw.isEmpty && mw.any fun w => substr w t) ||
  (let inter := qw.filter fun w => memW w faq_keywords
   !inter.isEmpty && inter.any fun w => substr w t)

/-- Lines 156-162: the FAQ loop. -/
def searchFaqs (mw qw : List String) : List FAQE → Exc (List FAQE)
  | [] => .ok []
  | f :: fs =>
    match faqText f with
    | .error e => .error e
    | .ok t =>
      match searchFaqs mw qw fs with
      | .error e => .error e
      | .ok rest => .ok (if faqCond mw qw t then f :: rest else rest)

/-- The policy inclusion condition of lines 168-170. -/
def policyCond (mw qw : List String) (t : String) : Bool :=
  (!mw.isEmpty && mw.any fun w => substr w t) ||
  (let inter := qw.filter fun w => memW w policy_keywords
   !inter.isEmpty && inter.any fun w => substr w t)

/-- Lines 166-171: the policy loop. -/
def searchPolicies (mw qw : List String) : List PolicyE → Exc (List PolicyE)
  | [] => .ok []
  | p :: ps =>
    match policyText p with
    | .error e => .error e
    | .ok t =>
      match searchPolicies mw qw ps with
      | .error e => .error e
      | .ok rest => .ok (if policyCond mw qw t then p :: rest else rest)

/-- Lines 174-177: the custom-knowledge loop. -/
def searchCustom (mw : List String) : List CustomE → Exc (List CustomE)
  | [] => .ok []
  | k :: ks =>
    match customText k with
    | .error e => .error e
    | .ok t =>
      match searchCustom mw ks with
      | .error e => .error e
      | .ok rest =>
        .ok (if !mw.isEmpty && mw.any (fun w => substr w t) then k :: rest else rest)

/-- `specific_terms = meaningful_words - product_query_keywords` (line 134). -/
def specificTerms (q : String) : List String :=
  (meaningful_words q).filter fun w => !(memW w product_query_keywords)

/-- Lines 122-125: store info is attached when the query mentions a store
keyword or is a greeting (`is_greeting`, line 120, uses the 8-word set). -/
def storePart (q : String) (m : Memory) : Option StoreInfoE :=
  if wordsInter (query_words q) store_keywords || wordsInter (query_words q) greeting_words
  then m.store_info else none

/-- Lines 127-152: the product branch.  A product query with no specific
terms returns all products; otherwise the appropriate loop runs. -/
def productsPart (q : String) (m : Memory) : Exc (List ProductE) :=
  if wordsInter (query_words q) product_query_keywords then
    if (specificTerms q).isEmpty then .ok m.products
    else searchProductsSpecific (specificTerms q) m.products
  else searchProductsGeneral (meaningful_words q) (query_words q) m.products

/-- `search_knowledge(query, memory)` (lines 97-179). -/
def search_knowledge (query : String) (m : Memory) : Exc SearchResults :=
  match productsPart query m with
  | .error e => .error e
  | .ok prods =>
    match searchFaqs (meaningful_words query) (query_words query) m.faqs with
    | .error e => .error e
    | .ok fqs =>
      match searchPolicies (meaningful_words query) (query_words query) m.policies with
      | .error e => .error e
      | .ok pols =>
        match searchCustom (meaningful_words query) m.custom_knowledge with
        | .error e => .error e
        | .ok cks => .ok ⟨prods, fqs, pols, cks, storePart query m⟩

/-! ## Response composer (`generate_response`, lines 182-272).
The source file stores its emoji as mojibake; the string constants below
reproduce the file's exact codepoints. -/

/-- The bullet glyph of the source (U+201A U+00C4 U+00A2). -/
def bulletG : String := "‚Ä¢"

def waveG : String := "üëã"
def memoG : String := "üìù"
def moneyG : String := "üí∞"
def folderG : String := "üìÅ"
def sparkleG : String := "‚ú®"
def checkG : String := "‚úÖ"
def crossG : String := "‚ùå"
def emailG : String := "üìß"
def phoneG : String := "üìû"

/-- Two-digit zero-padded remainder. -/
def pad2 (n : Nat) : String :=
  if n < 10 then "0" ++ toString n else toString n

/-- `f"{price:.2f}"` with `price` modelled as cents. -/
def fmt2f (cents : Nat) : String :=
  toString (cents / 100) ++ "." ++ pad2 (cents % 100)

/-- Composer greeting words (line 191) — note: a strict subset of the
matcher's `greeting_words`. -/
def composer_greeting_words : List String :=
  ["hi", "hello", "hey", "greetings"]

/-- Non-greeting-signal keywords (line 192). -/
def non_greeting_keywords : List String :=
  ["shipping", "return", "product", "price", "policy", "order", "buy",
   "help", "support"]

/-- `memory.get("store_info", {}).get("name", "our store")` (lines 196, 262). -/
def memStoreName (m : Memory) : String :=
  ((m.store_info.getD emptyStoreInfo).name).getD "our store"

/-- `memory.get("store_info", {}).get("contact_email", "support@store.com")`
(line 263). -/
def memContactEmail (m : Memory) : String :=
  ((m.store_info.getD emptyStoreInfo).contact_email).getD "support@store.com"

/-- The four help-category bullets of the canned greeting (lines 198-201). -/
def helpBullets : List String :=
  [bulletG ++ " Product information and recommendations",
   bulletG ++ " Pricing and availability",
   bulletG ++ " Shipping and return policies",
   bulletG ++ " General questions about our store"]

/-- Line 197. -/
def greetingHead (storeName : String) : String :=
  "Hello! Welcome to " ++ storeName ++ "! " ++ waveG ++
  " How can I help you today? I can assist you with:"

/-- The canned pure-greeting response (lines 195-202). -/
def greetingLines (storeName : String) : List String :=
  greetingHead storeName :: helpBullets

def joinLines (l : List String) : String := String.intercalate "\n" l

/-- Single-product detailed card (lines 206-218).  `p['name']`,
`p['description']`, `p['price']` are direct indexes and raise when
absent; `category`/`features`/`in_stock` use `.get` with defaults
(truthiness: non-empty string / non-empty list). -/
def singleProductLines (p : ProductE) : Exc (List String) :=
  match p.name, p.description, p.price with
  | some n, some d, some pr =>
    .ok (["**" ++ n ++ "**",
          memoG ++ " " ++ d,
          moneyG ++ " Price: R" ++ fmt2f pr]
      ++ (if (p.category.getD "") = "" then []
          else [folderG ++ " Category: " ++ p.category.getD ""])
      ++ (match p.features with
          | some (f :: fs) =>
            (sparkleG ++ " Features:") ::
              (f :: fs).map (fun x => "  " ++ bulletG ++ " " ++ x)
          | _ => [])
      ++ [if p.in_stock.getD true then checkG ++ " In Stock"
          else crossG ++ " Out of Stock"])
  | _, _, _ => .error ()

/-- One bulleted line of the multi-product list (lines 222-223). -/
def productLine (p : ProductE) : Exc String :=
  match p.name, p.price with
  | some n, some pr =>
    .ok (bulletG ++ " **" ++ n ++ "** - R" ++ fmt2f pr ++ " " ++
         (if p.in_stock.getD true then checkG else crossG))
  | _, _ => .error ()

def productLinesMulti : List ProductE → Exc (List String)
  | [] => .ok []
  | p :: ps =>
    match productLine p with
    | .error e => .error e
    | .ok l =>
      match productLinesMulti ps with
      | .error e => .error e
      | .ok rest => .ok (l :: rest)

/-- The products section (lines 205-223). -/
def productSection (ps : List ProductE) : Exc (List String) :=
  match ps with
  | [] => .ok []
  | [p] => singleProductLines p
  | _ =>
    match productLinesMulti (ps.take 5) with
    | .error e => .error e
    | .ok ls => .ok ("Here are some products that might interest you:" :: ls)

/-- `"\n---\n"` separator prepended when prior content exists
(lines 227-228 etc.). -/
def appendSep (parts ls : List String) : List String :=
  parts ++ (if parts.isEmpty then [] else ["\n---\n"]) ++ ls

def faqPairLines : List FAQE → Exc (List String)
  | [] => .ok []
  | f :: fs =>
    match f.question, f.answer with
    | some q, some a =>
      match faqPairLines fs with
      | .error e => .error e
      | .ok rest => .ok (("**Q: " ++ q ++ "**") :: ("A: " ++ a) :: rest)
    | _, _ => .error ()

/-- The FAQ section (lines 226-231): first three matched FAQs. -/
def faqSection (parts : List String) (fs : List FAQE) : Exc (List String) :=
  if fs.isEmpty then .ok parts
  else
    match faqPairLines (fs.take 3) with
    | .error e => .error e
    | .ok ls => .ok (appendSep parts ls)

def policyPairLines : List PolicyE → Exc (List String)
  | [] => .ok []
  | p :: ps =>
    match p.title, p.content with
    | some t, some c =>
      match policyPairLines ps with
      | .error e => .error e
      | .ok rest => .ok (("**" ++ t ++ "**") :: c :: rest)
    | _, _ => .error ()

/-- The policy section (lines 234-239): first two matched policies. -/
def policySection (parts : List String) (ps : List PolicyE) : Exc (List String) :=
  if ps.isEmpty then .ok parts
  else
    match policyPairLines (ps.take 2) with
    | .error e => .error e
    | .ok ls => .ok (appendSep parts ls)

def customPairLines : List CustomE → Exc (List String)
  | [] => .ok []
  | k :: ks =>
    match k.title, k.content with
    | some t, some c =>
      match customPairLines ks with
      | .error e => .error e
      | .ok rest => .ok (("**" ++ t ++ "**") :: c :: rest)
    | _, _ => .error ()

/-- The custom-knowledge section (lines 242-247): first two entries. -/
def customSection (parts : List String) (ks : List CustomE) : Exc (List String) :=
  if ks.isEmpty then .ok parts
  else
    match customPairLines (ks.take 2) with
    | .error e => .error e
    | .ok ls => .ok (appendSep parts ls)

/-- Python truthiness of `search_results["store_info"]`: a present,
non-empty dict. -/
def siTruthy : Option StoreInfoE → Bool
  | none => false
  | some s =>
    s.name.isSome || s.description.isSome || s.contact_email.isSome ||
      s.contact_phone.isSome

/-- Store-info rendering (lines 251-258); every access uses `.get`. -/
def storeInfoLines (s : StoreInfoE) : List String :=
  ("**" ++ s.name.getD "Our Store" ++ "**")
    :: ((if (s.description.getD "") = "" then [] else [s.description.getD ""])
      ++ (if (s.contact_email.getD "") = "" then []
          else [emailG ++ " Email: " ++ s.contact_email.getD ""])
      ++ (if (s.contact_phone.getD "") = "" then []
          else [phoneG ++ " Phone: " ++ s.contact_phone.getD ""]))

/-- Lines 249-258: the store-info section fires only when nothing was
rendered before it. -/
def storeSection (parts : List String) (si : Option StoreInfoE) : List String :=
  if siTruthy si && parts.isEmpty then parts ++ storeInfoLines (si.getD emptyStoreInfo)
  else parts

/-- The global-fallback lines (lines 261-270). -/
def fallbackLines (m : Memory) : List String :=
  ["I\x27m sorry, I couldn\x27t find specific information about that in my knowledge base.",
   "Here\x27s what I can help you with:",
   bulletG ++ " Product information and pricing",
   bulletG ++ " Shipping and delivery questions",
   bulletG ++ " Return and refund policies",
   bulletG ++ " General store inquiries",
   "\nFor more specific questions, please contact us at " ++ memContactEmail m]

/-- `generate_response(query, search_results, memory)` (lines 182-272). -/
def generate_response (query : String) (r : SearchResults) (m : Memory) : Exc String :=
  let qw := query_words query
  if wordsInter qw composer_greeting_words && !(wordsInter qw non_greeting_keywords) then
    .ok (joinLines (greetingLines (memStoreName m)))
  else
    match productSection r.products with
    | .error e => .error e
    | .ok parts1 =>
      match faqSection parts1 r.faqs with
      | .error e => .error e
      | .ok parts2 =>
        match policySection parts2 r.policies with
        | .error e => .error e
        | .ok parts3 =>
          match customSection parts3 r.custom_knowledge with
          | .error e => .error e
          | .ok parts4 =>
            let parts5 := storeSection parts4 r.store_info
            if parts5.isEmpty then .ok (joinLines (fallbackLines m))
            else .ok (joinLines parts5)

/-! ## Basic lemmas about the word-set operations -/

theorem memW_iff {w : String} {l : List String} : memW w l = true ↔ w ∈ l := by
  simp [memW, List.any_eq_true, beq_iff_eq]

theorem wordsInter_iff {a b : List String} :
    wordsInter a b = true ↔ ∃ w, w ∈ a ∧ w ∈ b := by
  simp [wordsInter, List.any_eq_true, memW_iff]

/-! ## The matched lists are sublists of the document's lists -/

theorem searchProductsSpecific_sublist {terms : List String} {l res : List ProductE}
    (h : searchProductsSpecific terms l = .ok res) : res.Sublist l := by
  induction l generalizing res with
  | nil =>
    simp only [searchProductsSpecific, Except.ok.injEq] at h
    simp [← h]
  | cons p ps ih =>
    unfold searchProductsSpecific at h
    cases hpt : productText p with
    | error e => rw [hpt] at h; exact absurd h (by simp)
    | ok t =>
      rw [hpt] at h
      cases hr : searchProductsSpecific terms ps with
      | error e => rw [hr] at h; exact absurd h (by simp)
      | ok rest =>
        rw [hr] at h
        simp only [Except.ok.injEq] at h
        subst h
        by_cases hc : terms.any (fun w => substr w t) = true
        · simpa [hc] using (ih hr).cons₂ p
        · simpa [hc] using (ih hr).cons p

theorem searchProductsGeneral_sublist {mw qw : List String} {l res : List ProductE}
    (h : searchProductsGeneral mw qw l = .ok res) : res.Sublist l := by
  induction l generalizing res with
  | nil =>
    simp only [searchProductsGeneral, Except.ok.injEq] at h
    simp [← h]
  | cons p ps ih =>
    unfold searchProductsGeneral at h
    cases hpt : productText p with
    | error e => rw [hpt] at h; exact absurd h (by simp)
    | ok t =>
      rw [hpt] at h
      cases hr : searchProductsGeneral mw qw ps with
      | error e => rw [hr] at h; exact absurd h (by simp)
      | ok rest =>
        rw [hr] at h
        simp only [Except.ok.injEq] at h
        subst h
        by_cases hc : (!mw.isEmpty && mw.any fun w => substr w t) = true
        · simpa [hc] using (ih hr).cons₂ p
        · by_cases hp : wordsInter qw price_keywords = true
          · simpa [hc, hp] using (ih hr).cons₂ p
          · simpa [hc, hp] using (ih hr).cons p

theorem searchFaqs_sublist {mw qw : List String} {l res : List FAQE}
    (h : searchFaqs mw qw l = .ok res) : res.Sublist l := by
  induction l generalizing res with
  | nil =>
    simp only [searchFaqs, Except.ok.injEq] at h
    simp [← h]
  | cons f fs ih =>
    unfold searchFaqs at h
    cases hft : faqText f with
    | error e => rw [hft] at h; exact absurd h (by simp)
    | ok t =>
      rw [hft] at h
      cases hr : searchFaqs mw qw fs with
      | error e => rw [hr] at h; exact absurd h (by simp)
      | ok rest =>
        rw [hr] at h
        simp only [Except.ok.injEq] at h
        subst h
        by_cases hc : faqCond mw qw t = true
        · simpa [hc] using (ih hr).cons₂ f
        · simpa [hc] using (ih hr).cons f

theorem searchPolicies_sublist {mw qw : List String} {l res : List PolicyE}
    (h : searchPolicies mw qw l = .ok res) : res.Sublist l := by
  induction l generalizing res with
  | nil =>
    simp only [searchPolicies, Except.ok.injEq] at h
    simp [← h]
  | cons p ps ih =>
    unfold searchPolicies at h
    cases hpt : policyText p with
    | error e => rw [hpt] at h; exact absurd h (by simp)
    | ok t =>
      rw [hpt] at h
      cases hr : searchPolicies mw qw ps with
      | error e => rw [hr] at h; exact absurd h (by simp)
      | ok rest =>
        rw [hr] at h
        simp only [Except.ok.injEq] at h
        subst h
        by_cases hc : policyCond mw qw t = true
        · simpa [hc] using (ih hr).cons₂ p
        · simpa [hc] using (ih hr).cons p

theorem searchCustom_sublist {mw : List String} {l res : List CustomE}
    (h : searchCustom mw l = .ok res) : res.Sublist l := by
  induction l generalizing res with
  | nil =>
    simp only [searchCustom, Except.ok.injEq] at h
    simp [← h]
  | cons k ks ih =>
    unfold searchCustom at h
    cases hkt : customText k with
    | error e => rw [hkt] at h; exact absurd h (by simp)
    | ok t =>
      rw [hkt] at h
      cases hr : searchCustom mw ks with
      | error e => rw [hr] at h; exact absurd h (by simp)
      | ok rest =>
        rw [hr] at h
        simp only [Except.ok.injEq] at h
        subst h
        by_cases hc : (!mw.isEmpty && mw.any fun w => substr w t) = true
        · simpa [hc] using (ih hr).cons₂ k
        · simpa [hc] using (ih hr).cons k

/-- Inversion of a successful `search_knowledge` call into its five
component computations. -/
theorem search_knowledge_inv {q : String} {m : Memory} {r : SearchResults}
    (h : search_knowledge q m = .ok r) :
    productsPart q m = .ok r.products ∧
    searchFaqs (meaningful_words q) (query_words q) m.faqs = .ok r.faqs ∧
    searchPolicies (meaningful_words q) (query_words q) m.policies = .ok r.policies ∧
    searchCustom (meaningful_words q) m.custom_knowledge = .ok r.custom_knowledge ∧
    r.store_info = storePart q m := by
  unfold search_knowledge at h
  cases hp : productsPart q m with
  | error e => rw [hp] at h; exact absurd h (by simp)
  | ok prods =>
    rw [hp] at h
    cases hf : searchFaqs (meaningful_words q) (query_words q) m.faqs with
    | error e => rw [hf] at h; exact absurd h (by simp)
    | ok fqs =>
      rw [hf] at h
      cases hpo : searchPolicies (meaningful_words q) (query_words q) m.policies with
      | error e => rw [hpo] at h; exact absurd h (by simp)
      | ok pols =>
        rw [hpo] at h
        cases hc : searchCustom (meaningful_words q) m.custom_knowledge with
        | error e => rw [hc] at h; exact absurd h (by simp)
        | ok cks =>
          rw [hc] at h
          simp only [Except.ok.injEq] at h
          subst h
          exact ⟨rfl, rfl, rfl, rfl, rfl⟩

theorem productsPart_sublist {q : String} {m : Memory} {res : List ProductE}
    (h : productsPart q m = .ok res) : res.Sublist m.products := by
  unfold productsPart at h
  split at h
  · split at h
    · simp only [Except.ok.injEq] at h
      subst h
      exact List.Sublist.refl _
    · exact searchProductsSpecific_sublist h
  · exact searchProductsGeneral_sublist h

/-! ## Claim C9 -/

/-- C9 counterexample data: a document whose FAQ list contains the same
entry twice. -/
def faqDup : FAQE := ⟨none, some "shipping", some "we ship", none⟩

def memDup : Memory := ⟨[], [faqDup, faqDup], [], [], none⟩

def resDup : SearchResults := ⟨[], [faqDup, faqDup], [], [], none⟩

/-- C9 (counterexample): on a document whose FAQ list holds the same entry
twice, the query "ship" matches both occurrences, so the matched FAQ list
is NOT duplicate-free — refuting the claim's "appears at most once in the
result" part. -/
theorem c9_matched_duplicate_cex :
    search_knowledge "ship" memDup = .ok resDup ∧ ¬ resDup.faqs.Nodup := by
  exact ⟨rfl, by decide⟩

/-- C9 (amended): each matched list of a successful `search_knowledge`
call is an order-preserving subsequence (sublist) of the corresponding
document list, and it is duplicate-free whenever the document's list is. -/
theorem c9_matched_lists_sublists {q : String} {m : Memory} {r : SearchResults}
    (h : search_knowledge q m = .ok r) :
    r.products.Sublist m.products ∧ r.faqs.Sublist m.faqs ∧
    r.policies.Sublist m.policies ∧
    r.custom_knowledge.Sublist m.custom_knowledge ∧
    (m.products.Nodup → r.products.Nodup) ∧ (m.faqs.Nodup → r.faqs.Nodup) ∧
    (m.policies.Nodup → r.policies.Nodup) ∧
    (m.custom_knowledge.Nodup → r.custom_knowledge.Nodup) := by
  obtain ⟨hp, hf, hpo, hc, -⟩ := search_knowledge_inv h
  have sp := productsPart_sublist hp
  have sf := searchFaqs_sublist hf
  have spo := searchPolicies_sublist hpo
  have sc := searchCustom_sublist hc
  exact ⟨sp, sf, spo, sc, fun hnd => hnd.sublist sp, fun hnd => hnd.sublist sf,
    fun hnd => hnd.sublist spo, fun hnd => hnd.sublist sc⟩

/-- Witness for C9's amended theorem at a concrete query and document. -/
theorem c9_matched_lists_sublists_witness :
    resDup.products.Sublist memDup.products ∧ resDup.faqs.Sublist memDup.faqs ∧
    resDup.policies.Sublist memDup.policies ∧
    resDup.custom_knowledge.Sublist memDup.custom_knowledge ∧
    (memDup.products.Nodup → resDup.products.Nodup) ∧
    (memDup.faqs.Nodup → resDup.faqs.Nodup) ∧
    (memDup.policies.Nodup → resDup.policies.Nodup) ∧
    (memDup.custom_knowledge.Nodup → resDup.custom_knowledge.Nodup) :=
  c9_matched_lists_sublists (q := "ship") rfl

/-! ## Claim C4: the FAQ inclusion condition -/

theorem nonempty_and_any {l : List String} {p : String → Bool} :
    (!l.isEmpty && l.any p) = true ↔ ∃ w, w ∈ l ∧ p w = true := by
  cases l <;> simp [List.any_eq_true]

/-- The boolean FAQ condition, read as the claim states it. -/
theorem faqCond_iff {mw qw : List String} {t : String} :
    faqCond mw qw t = true ↔
      ((∃ w, w ∈ mw ∧ substr w t = true) ∨
       (∃ w, w ∈ qw ∧ w ∈ faq_keywords ∧ substr w t = true)) := by
  unfold faqCond
  rw [Bool.or_eq_true, nonempty_and_any, nonempty_and_any]
  simp [List.mem_filter, memW_iff, and_assoc]

/-- Elementwise characterization of the FAQ loop. -/
theorem searchFaqs_mem_iff {mw qw : List String} {l res : List FAQE} {f : FAQE}
    {t : String} (h : searchFaqs mw qw l = .ok res) (hf : f ∈ l)
    (ht : faqText f = .ok t) : (f ∈ res ↔ faqCond mw qw t = true) := by
  induction l generalizing res with
  | nil => cases hf
  | cons g gs ih =>
    unfold searchFaqs at h
    cases hgt : faqText g with
    | error e => rw [hgt] at h; exact absurd h (by simp)
    | ok tg =>
      rw [hgt] at h
      cases hr : searchFaqs mw qw gs with
      | error e => rw [hr] at h; exact absurd h (by simp)
      | ok rest =>
        rw [hr] at h
        simp only [Except.ok.injEq] at h
        subst h
        have hsub := searchFaqs_sublist hr
        rcases List.mem_cons.mp hf with hfg | hfgs
        · subst hfg
          have htg : t = tg := by
            have := ht.symm.trans hgt
            exact Except.ok.inj this
          subst htg
          by_cases hc : faqCond mw qw t = true
          · simp [hc]
          · simp only [if_neg hc]
            by_cases hmem : f ∈ gs
            · rw [ih hr hmem]
            · have hnr : f ∉ rest := fun hin => hmem (hsub.subset hin)
              simp [hnr, hc]
        · have hiff := ih hr hfgs
          by_cases hc : faqCond mw qw tg = true
          · simp only [if_pos hc]
            rw [List.mem_cons]
            constructor
            · rintro (rfl | hm)
              · have htg : t = tg := Except.ok.inj (ht.symm.trans hgt)
                rw [htg]
                exact hc
              · exact hiff.mp hm
            · intro hcond
              exact Or.inr (hiff.mpr hcond)
          · simp only [if_neg hc]
            exact hiff

/-- C4 (confirmed): an FAQ of the document is in the match result iff some
meaningful query word is a substring of its searchable text, or some query
word belonging to the FAQ-keyword set is a substring of that text. -/
theorem c4_faq_inclusion_iff {q : String} {m : Memory} {r : SearchResults}
    (h : search_knowledge q m = .ok r) {f : FAQE} {t : String}
    (hf : f ∈ m.faqs) (ht : faqText f = .ok t) :
    (f ∈ r.faqs ↔
      ((∃ w, w ∈ meaningful_words q ∧ substr w t = true) ∨
       (∃ w, w ∈ query_words q ∧ w ∈ faq_keywords ∧ substr w t = true))) := by
  obtain ⟨-, hfq, -, -, -⟩ := search_knowledge_inv h
  rw [searchFaqs_mem_iff hfq hf ht]
  exact faqCond_iff

/-- C4 witness data. -/
def faqC4 : FAQE := ⟨some "f1", some "Do you give refunds", some "Yes", some "returns"⟩

def memC4 : Memory := ⟨[], [faqC4], [], [], none⟩

def resC4 : SearchResults := ⟨[], [faqC4], [], [], none⟩

/-- Witness for C4 at the concrete query "refund" and a one-FAQ document. -/
theorem c4_faq_inclusion_iff_witness :
    faqC4 ∈ resC4.faqs ↔
      ((∃ w, w ∈ meaningful_words "refund" ∧
          substr w "do you give refunds yes returns" = true) ∨
       (∃ w, w ∈ query_words "refund" ∧ w ∈ faq_keywords ∧
          substr w "do you give refunds yes returns" = true)) :=
  c4_faq_inclusion_iff (q := "refund") (m := memC4) rfl (by decide) rfl

/-! ## Claim C3: the all-products branch -/

/-- C3 (confirmed): when the query mentions a product-query keyword and
the meaningful words minus that keyword set are empty, every product of
the document is in the match result. -/
theorem c3_product_query_matches_all {q : String} {m : Memory} {r : SearchResults}
    (h : search_knowledge q m = .ok r)
    (hk : wordsInter (query_words q) product_query_keywords = true)
    (hs : (specificTerms q).isEmpty = true) :
    ∀ p ∈ m.products, p ∈ r.products := by
  obtain ⟨hp, -, -, -, -⟩ := search_knowledge_inv h
  unfold productsPart at hp
  rw [if_pos hk, if_pos hs] at hp
  have : m.products = r.products := Except.ok.inj hp
  intro p hpmem
  rw [← this]
  exact hpmem

/-- C3 witness data: a document with three products. -/
def prodA : ProductE :=
  ⟨some "1", some "Mug", some "A red mug", some 9950, some "kitchen", some ["ceramic"], some true⟩

def prodB : ProductE :=
  ⟨some "2", some "Hat", some "A blue hat", some 12000, none, none, some false⟩

def prodC : ProductE :=
  ⟨some "3", some "Pen", some "Fine pen", some 500, some "", some [], none⟩

def memC3 : Memory := ⟨[prodA, prodB, prodC], [], [], [], none⟩

def resC3 : SearchResults := ⟨[prodA, prodB, prodC], [], [], [], none⟩

/-- Witness for C3: the query "products" on the three-product document
matches all three products, and the composer renders them in the
multi-product bulleted list format. -/
theorem c3_product_query_matches_all_witness :
    (prodA ∈ resC3.products ∧ prodB ∈ resC3.products ∧ prodC ∈ resC3.products) ∧
    search_knowledge "products" memC3 = .ok resC3 ∧
    generate_response "products" resC3 memC3 =
      .ok (joinLines
        ["Here are some products that might interest you:",
         bulletG ++ " **Mug** - R99.50 " ++ checkG,
         bulletG ++ " **Hat** - R120.00 " ++ crossG,
         bulletG ++ " **Pen** - R5.00 " ++ checkG]) := by
  refine ⟨⟨?_, ?_, ?_⟩, rfl, rfl⟩
  · exact c3_product_query_matches_all (q := "products") (m := memC3) (r := resC3)
      rfl (by decide) (by decide) prodA (by decide)
  · exact c3_product_query_matches_all (q := "products") (m := memC3) (r := resC3)
      rfl (by decide) (by decide) prodB (by decide)
  · exact c3_product_query_matches_all (q := "products") (m := memC3) (r := resC3)
      rfl (by decide) (by decide) prodC (by decide)

/-! ## Claim C1: the pure-greeting short-circuit -/

def siAcme : StoreInfoE := ⟨some "Acme", none, none, none⟩

def memC1 : Memory := ⟨[], [], [], [], some siAcme⟩

def resC1 : SearchResults := ⟨[], [], [], [], some siAcme⟩

/-- C1 (counterexample): the query "good morning" intersects the claimed
8-word greeting set and avoids the non-greeting-signal set, yet the
composer does not return the canned welcome — it renders the store-info
section instead, because the composer's own greeting set (line 191) is
only {hi, hello, hey, greetings}. -/
theorem c1_greeting_set_cex :
    wordsInter (query_words "good morning") greeting_words = true ∧
    wordsInter (query_words "good morning") non_greeting_keywords = false ∧
    search_knowledge "good morning" memC1 = .ok resC1 ∧
    generate_response "good morning" resC1 memC1 = .ok "**Acme**" ∧
    "**Acme**" ≠ joinLines (greetingLines "Acme") :=
  ⟨by decide, by decide, rfl, rfl, by decide⟩

/-- C1 (amended): for a query whose word set intersects the composer's
greeting set {hi, hello, hey, greetings} and does not intersect the
non-greeting-signal set, the composer short-circuits and returns exactly
the canned welcome naming the store, whose tail is the fixed list of four
help-category bullet lines — no other section is rendered. -/
theorem c1_pure_greeting {q : String} (r : SearchResults) (m : Memory)
    (h1 : wordsInter (query_words q) composer_greeting_words = true)
    (h2 : wordsInter (query_words q) non_greeting_keywords = false) :
    generate_response q r m = .ok (joinLines (greetingLines (memStoreName m))) ∧
    greetingLines (memStoreName m) = greetingHead (memStoreName m) :: helpBullets ∧
    helpBullets.length = 4 := by
  refine ⟨?_, rfl, rfl⟩
  simp [generate_response, h1, h2]

/-- Witness for C1's amended theorem at the query "hi". -/
theorem c1_pure_greeting_witness :
    generate_response "hi" resC1 memC1 =
      .ok (joinLines (greetingLines (memStoreName memC1))) ∧
    greetingLines (memStoreName memC1) =
      greetingHead (memStoreName memC1) :: helpBullets ∧
    helpBullets.length = 4 :=
  c1_pure_greeting (q := "hi") resC1 memC1 (by decide) (by decide)

/-! ## Claim C5: truncation limits of the composer -/

theorem take_isEmpty_eq {α : Type} {l : List α} {n : Nat} (h : 0 < n) :
    (l.take n).isEmpty = l.isEmpty := by
  cases l with
  | nil => simp
  | cons a as =>
    cases n with
    | zero => exact absurd h (by omega)
    | succ k => simp

theorem productSection_take {ps : List ProductE} :
    productSection (ps.take 5) = productSection ps := by
  match ps with
  | [] => rfl
  | [p] => rfl
  | p :: q :: rest =>
    show productSection (p :: q :: rest.take 3) = productSection (p :: q :: rest)
    unfold productSection
    simp [List.take_take]

theorem faqSection_take {parts : List String} {fs : List FAQE} :
    faqSection parts (fs.take 3) = faqSection parts fs := by
  unfold faqSection
  rw [take_isEmpty_eq (by omega)]
  by_cases hfs : fs.isEmpty
  · simp [hfs]
  · simp [hfs, List.take_take]

theorem policySection_take {parts : List String} {ps : List PolicyE} :
    policySection parts (ps.take 2) = policySection parts ps := by
  unfold policySection
  rw [take_isEmpty_eq (by omega)]
  by_cases hps : ps.isEmpty
  · simp [hps]
  · simp [hps, List.take_take]

theorem customSection_take {parts : List String} {ks : List CustomE} :
    customSection parts (ks.take 2) = customSection parts ks := by
  unfold customSection
  rw [take_isEmpty_eq (by omega)]
  by_cases hks : ks.isEmpty
  · simp [hks]
  · simp [hks, List.take_take]

/-- The truncation the composer applies: 5 products, 3 FAQs, 2 policies,
2 custom entries. -/
def truncResults (r : SearchResults) : SearchResults :=
  ⟨r.products.take 5, r.faqs.take 3, r.policies.take 2,
   r.custom_knowledge.take 2, r.store_info⟩

def faqN (i : Nat) : FAQE :=
  ⟨none, some ("question " ++ toString i ++ " shipping"),
   some ("answer " ++ toString i), none⟩

def memC5 : Memory := ⟨[], (List.range 10).map faqN, [], [], none⟩

def resC5 : SearchResults := ⟨[], (List.range 10).map faqN, [], [], none⟩

def outC5Lines : List String :=
  ["**Q: question 0 shipping**", "A: answer 0",
   "**Q: question 1 shipping**", "A: answer 1",
   "**Q: question 2 shipping**", "A: answer 2"]

def outC5 : String := joinLines outC5Lines

/-- `p` is a prefix of `s` (kernel-evaluable `String.startsWith`). -/
def startsWithB (p s : String) : Bool := isPrefixB p.data s.data

/-- Splits a string at every newline, keeping empty lines. -/
def splitLinesCh : List Char → List Char → List String
  | [], acc => [String.mk acc.reverse]
  | c :: cs, acc =>
    if c = '\n' then String.mk acc.reverse :: splitLinesCh cs []
    else splitLinesCh cs (c :: acc)

def linesOf (s : String) : List String := splitLinesCh s.data []

/-- C5 (confirmed): the composer's output only depends on the first 5
products, 3 FAQs, 2 policies and 2 custom entries of the match result
(entries beyond those limits are never rendered); concretely, a result
with 10 matching FAQs renders exactly 3 question lines. -/
theorem c5_truncation_limits :
    (∀ (q : String) (r : SearchResults) (m : Memory),
      generate_response q r m = generate_response q (truncResults r) m) ∧
    search_knowledge "shipping" memC5 = .ok resC5 ∧
    resC5.faqs.length = 10 ∧
    generate_response "shipping" resC5 memC5 = .ok outC5 ∧
    ((linesOf outC5).countP fun l => startsWithB "**Q: " l) = 3 := by
  refine ⟨?_, rfl, by decide, rfl, by decide⟩
  intro q r m
  unfold generate_response
  simp only [truncResults, productSection_take, faqSection_take,
    policySection_take, customSection_take]

/-! ## Claim C6: the global fallback -/

/-- C6 (confirmed): when every matched list is empty, the store-info
reference is not truthy, and the pure-greeting branch does not fire, the
composer returns the fixed "couldn't find information" message with four
help-category bullets and the contact email of `storeInfo` (defaulting to
"support@store.com" when the document has no store info). -/
theorem c6_global_fallback {q : String} {r : SearchResults} {m : Memory}
    (hp : r.products = []) (hf : r.faqs = []) (hpo : r.policies = [])
    (hc : r.custom_knowledge = []) (hsi : siTruthy r.store_info = false)
    (hg : (wordsInter (query_words q) composer_greeting_words &&
           !(wordsInter (query_words q) non_greeting_keywords)) = false) :
    generate_response q r m = .ok (joinLines (fallbackLines m)) ∧
    (m.store_info = none → memContactEmail m = "support@store.com") := by
  constructor
  · simp [generate_response, hg, hp, hf, hpo, hc, productSection, faqSection,
      policySection, customSection, storeSection, hsi]
  · intro h0
    simp [memContactEmail, h0, emptyStoreInfo]

/-- Witness for C6 at the query "xyz" on the empty document. -/
theorem c6_global_fallback_witness :
    generate_response "xyz" ⟨[], [], [], [], none⟩ ⟨[], [], [], [], none⟩ =
      .ok (joinLines (fallbackLines ⟨[], [], [], [], none⟩)) ∧
    ((⟨[], [], [], [], none⟩ : Memory).store_info = none →
      memContactEmail ⟨[], [], [], [], none⟩ = "support@store.com") :=
  c6_global_fallback rfl rfl rfl rfl (by decide) (by decide)

/-! ## Well-formedness: required fields present.
The source indexes `name`, `description`, `price` (products), `question`,
`answer` (FAQs), `title`, `content` (policies and custom entries) directly,
so these must be present for the pipeline to succeed; all other fields are
read through `.get` with defaults. -/

def WFproduct (p : ProductE) : Prop :=
  p.name.isSome ∧ p.description.isSome ∧ p.price.isSome

def WFfaq (f : FAQE) : Prop := f.question.isSome ∧ f.answer.isSome

def WFpolicy (p : PolicyE) : Prop := p.title.isSome ∧ p.content.isSome

def WFcustom (k : CustomE) : Prop := k.title.isSome ∧ k.content.isSome

def WFmemory (m : Memory) : Prop :=
  (∀ p ∈ m.products, WFproduct p) ∧ (∀ f ∈ m.faqs, WFfaq f) ∧
  (∀ p ∈ m.policies, WFpolicy p) ∧ (∀ k ∈ m.custom_knowledge, WFcustom k)

instance : DecidablePred WFproduct := fun p => by unfold WFproduct; infer_instance

instance : DecidablePred WFfaq := fun f => by unfold WFfaq; infer_instance

instance : DecidablePred WFpolicy := fun p => by unfold WFpolicy; infer_instance

instance : DecidablePred WFcustom := fun k => by unfold WFcustom; infer_instance

instance (m : Memory) : Decidable (WFmemory m) := by unfold WFmemory; infer_instance

theorem productText_ok {p : ProductE} (h1 : p.name.isSome) (h2 : p.description.isSome) :
    ∃ t, productText p = .ok t := by
  cases hn : p.name with
  | none => rw [hn] at h1; cases h1
  | some n =>
    cases hd : p.description with
    | none => rw [hd] at h2; cases h2
    | some d =>
      unfold productText
      rw [hn, hd]
      exact ⟨_, rfl⟩

theorem faqText_ok {f : FAQE} (h1 : f.question.isSome) (h2 : f.answer.isSome) :
    ∃ t, faqText f = .ok t := by
  cases hq : f.question with
  | none => rw [hq] at h1; cases h1
  | some q =>
    cases ha : f.answer with
    | none => rw [ha] at h2; cases h2
    | some a =>
      unfold faqText
      rw [hq, ha]
      exact ⟨_, rfl⟩

theorem policyText_ok {p : PolicyE} (h1 : p.title.isSome) (h2 : p.content.isSome) :
    ∃ t, policyText p = .ok t := by
  cases ht : p.title with
  | none => rw [ht] at h1; cases h1
  | some ti =>
    cases hc : p.content with
    | none => rw [hc] at h2; cases h2
    | some c =>
      unfold policyText
      rw [ht, hc]
      exact ⟨_, rfl⟩

theorem customText_ok {k : CustomE} (h1 : k.title.isSome) (h2 : k.content.isSome) :
    ∃ t, customText k = .ok t := by
  cases ht : k.title with
  | none => rw [ht] at h1; cases h1
  | some ti =>
    cases hc : k.content with
    | none => rw [hc] at h2; cases h2
    | some c =>
      unfold customText
      rw [ht, hc]
      exact ⟨_, rfl⟩

theorem searchProductsSpecific_ok {terms : List String} {l : List ProductE}
    (h : ∀ p ∈ l, WFproduct p) : ∃ res, searchProductsSpecific terms l = .ok res := by
  induction l with
  | nil => exact ⟨[], rfl⟩
  | cons p ps ih =>
    obtain ⟨t, ht⟩ := productText_ok (h p (by simp)).1 (h p (by simp)).2.1
    obtain ⟨rest, hrest⟩ := ih fun x hx => h x (by simp [hx])
    refine ⟨if terms.any (fun w => substr w t) then p :: rest else rest, ?_⟩
    unfold searchProductsSpecific
    rw [ht, hrest]

theorem searchProductsGeneral_ok {mw qw : List String} {l : List ProductE}
    (h : ∀ p ∈ l, WFproduct p) : ∃ res, searchProductsGeneral mw qw l = .ok res := by
  induction l with
  | nil => exact ⟨[], rfl⟩
  | cons p ps ih =>
    obtain ⟨t, ht⟩ := productText_ok (h p (by simp)).1 (h p (by simp)).2.1
    obtain ⟨rest, hrest⟩ := ih fun x hx => h x (by simp [hx])
    unfold searchProductsGeneral
    rw [ht, hrest]
    exact ⟨_, rfl⟩

theorem searchFaqs_ok {mw qw : List String} {l : List FAQE}
    (h : ∀ f ∈ l, WFfaq f) : ∃ res, searchFaqs mw qw l = .ok res := by
  induction l with
  | nil => exact ⟨[], rfl⟩
  | cons f fs ih =>
    obtain ⟨t, ht⟩ := faqText_ok (h f (by simp)).1 (h f (by simp)).2
    obtain ⟨rest, hrest⟩ := ih fun x hx => h x (by simp [hx])
    unfold searchFaqs
    rw [ht, hrest]
    exact ⟨_, rfl⟩

theorem searchPolicies_ok {mw qw : List String} {l : List PolicyE}
    (h : ∀ p ∈ l, WFpolicy p) : ∃ res, searchPolicies mw qw l = .ok res := by
  induction l with
  | nil => exact ⟨[], rfl⟩
  | cons p ps ih =>
    obtain ⟨t, ht⟩ := policyText_ok (h p (by simp)).1 (h p (by simp)).2
    obtain ⟨rest, hrest⟩ := ih fun x hx => h x (by simp [hx])
    unfold searchPolicies
    rw [ht, hrest]
    exact ⟨_, rfl⟩

theorem searchCustom_ok {mw : List String} {l : List CustomE}
    (h : ∀ k ∈ l, WFcustom k) : ∃ res, searchCustom mw l = .ok res := by
  induction l with
  | nil => exact ⟨[], rfl⟩
  | cons k ks ih =>
    obtain ⟨t, ht⟩ := customText_ok (h k (by simp)).1 (h k (by simp)).2
    obtain ⟨rest, hrest⟩ := ih fun x hx => h x (by simp [hx])
    unfold searchCustom
    rw [ht, hrest]
    exact ⟨_, rfl⟩

theorem productsPart_ok {q : String} {m : Memory}
    (h : ∀ p ∈ m.products, WFproduct p) : ∃ res, productsPart q m = .ok res := by
  unfold productsPart
  by_cases h1 : wordsInter (query_words q) product_query_keywords = true
  · rw [if_pos h1]
    by_cases h2 : (specificTerms q).isEmpty = true
    · rw [if_pos h2]; exact ⟨m.products, rfl⟩
    · rw [if_neg h2]; exact searchProductsSpecific_ok h
  · rw [if_neg h1]; exact searchProductsGeneral_ok h

theorem search_knowledge_ok {q : String} {m : Memory} (h : WFmemory m) :
    ∃ r, search_knowledge q m = .ok r := by
  obtain ⟨h1, h2, h3, h4⟩ := h
  obtain ⟨prods, hprods⟩ := productsPart_ok (q := q) h1
  obtain ⟨fqs, hfqs⟩ := @searchFaqs_ok (meaningful_words q) (query_words q) m.faqs h2
  obtain ⟨pols, hpols⟩ := @searchPolicies_ok (meaningful_words q) (query_words q) m.policies h3
  obtain ⟨cks, hcks⟩ := @searchCustom_ok (meaningful_words q) m.custom_knowledge h4
  refine ⟨⟨prods, fqs, pols, cks, storePart q m⟩, ?_⟩
  unfold search_knowledge
  rw [hprods, hfqs, hpols, hcks]

theorem singleProductLines_ok {p : ProductE} (h : WFproduct p) :
    ∃ ls, singleProductLines p = .ok ls := by
  obtain ⟨h1, h2, h3⟩ := h
  cases hn : p.name with
  | none => rw [hn] at h1; cases h1
  | some n =>
    cases hd : p.description with
    | none => rw [hd] at h2; cases h2
    | some d =>
      cases hp : p.price with
      | none => rw [hp] at h3; cases h3
      | some pr =>
        unfold singleProductLines
        rw [hn, hd, hp]
        exact ⟨_, rfl⟩

theorem productLine_ok {p : ProductE} (h1 : p.name.isSome) (h3 : p.price.isSome) :
    ∃ l, productLine p = .ok l := by
  cases hn : p.name with
  | none => rw [hn] at h1; cases h1
  | some n =>
    cases hp : p.price with
    | none => rw [hp] at h3; cases h3
    | some pr =>
      unfold productLine
      rw [hn, hp]
      exact ⟨_, rfl⟩

theorem productLinesMulti_ok {l : List ProductE} (h : ∀ p ∈ l, WFproduct p) :
    ∃ ls, productLinesMulti l = .ok ls := by
  induction l with
  | nil => exact ⟨[], rfl⟩
  | cons p ps ih =>
    obtain ⟨li, hli⟩ := productLine_ok (h p (by simp)).1 (h p (by simp)).2.2
    obtain ⟨rest, hrest⟩ := ih fun x hx => h x (by simp [hx])
    refine ⟨li :: rest, ?_⟩
    unfold productLinesMulti
    rw [hli, hrest]

theorem faqPairLines_ok {l : List FAQE} (h : ∀ f ∈ l, WFfaq f) :
    ∃ ls, faqPairLines l = .ok ls := by
  induction l with
  | nil => exact ⟨[], rfl⟩
  | cons f fs ih =>
    obtain ⟨h1, h2⟩ := h f (by simp)
    obtain ⟨rest, hrest⟩ := ih fun x hx => h x (by simp [hx])
    cases hq : f.question with
    | none => rw [hq] at h1; cases h1
    | some q =>
      cases ha : f.answer with
      | none => rw [ha] at h2; cases h2
      | some a =>
        unfold faqPairLines
        rw [hq, ha, hrest]
        exact ⟨_, rfl⟩

theorem policyPairLines_ok {l : List PolicyE} (h : ∀ p ∈ l, WFpolicy p) :
    ∃ ls, policyPairLines l = .ok ls := by
  induction l with
  | nil => exact ⟨[], rfl⟩
  | cons p ps ih =>
    obtain ⟨h1, h2⟩ := h p (by simp)
    obtain ⟨rest, hrest⟩ := ih fun x hx => h x (by simp [hx])
    cases ht : p.title with
    | none => rw [ht] at h1; cases h1
    | some t =>
      cases hc : p.content with
      | none => rw [hc] at h2; cases h2
      | some c =>
        unfold policyPairLines
        rw [ht, hc, hrest]
        exact ⟨_, rfl⟩

theorem customPairLines_ok {l : List CustomE} (h : ∀ k ∈ l, WFcustom k) :
    ∃ ls, customPairLines l = .ok ls := by
  induction l with
  | nil => exact ⟨[], rfl⟩
  | cons k ks ih =>
    obtain ⟨h1, h2⟩ := h k (by simp)
    obtain ⟨rest, hrest⟩ := ih fun x hx => h x (by simp [hx])
    cases ht : k.title with
    | none => rw [ht] at h1; cases h1
    | some t =>
      cases hc : k.content with
      | none => rw [hc] at h2; cases h2
      | some c =>
        unfold customPairLines
        rw [ht, hc, hrest]
        exact ⟨_, rfl⟩

theorem productSection_ok {ps : List ProductE} (h : ∀ p ∈ ps, WFproduct p) :
    ∃ ls, productSection ps = .ok ls := by
  match ps with
  | [] => exact ⟨[], rfl⟩
  | [p] => exact singleProductLines_ok (h p (by simp))
  | p :: q :: rest =>
    obtain ⟨ls, hls⟩ :=
      @productLinesMulti_ok ((p :: q :: rest).take 5)
        fun x hx => h x (List.take_subset 5 _ hx)
    refine ⟨"Here are some products that might interest you:" :: ls, ?_⟩
    unfold productSection
    rw [hls]

theorem faqSection_ok {parts : List String} {fs : List FAQE}
    (h : ∀ f ∈ fs, WFfaq f) : ∃ ls, faqSection parts fs = .ok ls := by
  unfold faqSection
  by_cases he : fs.isEmpty = true
  · rw [if_pos he]; exact ⟨parts, rfl⟩
  · rw [if_neg he]
    obtain ⟨ls, hls⟩ :=
      @faqPairLines_ok (fs.take 3) fun x hx => h x (List.take_subset 3 _ hx)
    rw [hls]
    exact ⟨_, rfl⟩

theorem policySection_ok {parts : List String} {ps : List PolicyE}
    (h : ∀ p ∈ ps, WFpolicy p) : ∃ ls, policySection parts ps = .ok ls := by
  unfold policySection
  by_cases he : ps.isEmpty = true
  · rw [if_pos he]; exact ⟨parts, rfl⟩
  · rw [if_neg he]
    obtain ⟨ls, hls⟩ :=
      @policyPairLines_ok (ps.take 2) fun x hx => h x (List.take_subset 2 _ hx)
    rw [hls]
    exact ⟨_, rfl⟩

theorem customSection_ok {parts : List String} {ks : List CustomE}
    (h : ∀ k ∈ ks, WFcustom k) : ∃ ls, customSection parts ks = .ok ls := by
  unfold customSection
  by_cases he : ks.isEmpty = true
  · rw [if_pos he]; exact ⟨parts, rfl⟩
  · rw [if_neg he]
    obtain ⟨ls, hls⟩ :=
      @customPairLines_ok (ks.take 2) fun x hx => h x (List.take_subset 2 _ hx)
    rw [hls]
    exact ⟨_, rfl⟩

theorem generate_response_ok {q : String} {r : SearchResults} {m : Memory}
    (hps : ∀ p ∈ r.products, WFproduct p) (hfs : ∀ f ∈ r.faqs, WFfaq f)
    (hpo : ∀ p ∈ r.policies, WFpolicy p)
    (hks : ∀ k ∈ r.custom_knowledge, WFcustom k) :
    ∃ s, generate_response q r m = .ok s := by
  by_cases hg : (wordsInter (query_words q) composer_greeting_words &&
      !(wordsInter (query_words q) non_greeting_keywords)) = true
  · exact ⟨joinLines (greetingLines (memStoreName m)),
      by simp [generate_response, hg]⟩
  · obtain ⟨p1, hp1⟩ := productSection_ok hps
    obtain ⟨p2, hp2⟩ := @faqSection_ok p1 r.faqs hfs
    obtain ⟨p3, hp3⟩ := @policySection_ok p2 r.policies hpo
    obtain ⟨p4, hp4⟩ := @customSection_ok p3 r.custom_knowledge hks
    by_cases hse : (storeSection p4 r.store_info).isEmpty = true
    · exact ⟨joinLines (fallbackLines m),
        by simp [generate_response, hg, hp1, hp2, hp3, hp4, hse]⟩
    · exact ⟨joinLines (storeSection p4 r.store_info),
        by simp [generate_response, hg, hp1, hp2, hp3, hp4, hse]⟩

/-! ## Claim C2: tolerance of malformed documents -/

/-- C2 counterexample data: a product whose `name` key is absent. -/
def badProductC2 : ProductE := ⟨none, none, some "a widget", none, none, none, none⟩

def memBadC2 : Memory := ⟨[badProductC2], [], [], [], none⟩

/-- C2 (counterexample): on a document holding a product without a `name`
key, the query "widget" makes `search_knowledge` raise (KeyError at the
`product['name']` access of line 146) instead of substituting a default —
refuting "search_knowledge and generate_response never fail". -/
theorem c2_missing_required_field_cex :
    search_knowledge "widget" memBadC2 = .error () := rfl

/-- C2 (amended): defaults are substituted only at the optional-field
accesses (`category`, `features`, `in_stock`, `type`, `keywords`, store
info); the required fields (product name/description/price, FAQ
question/answer, policy and custom title/content) are indexed directly and
raise when absent.  For documents whose entries all carry their required
fields, `search_knowledge` and `generate_response` never fail — for any
query whatsoever. -/
theorem c2_no_failure_on_wf {q : String} {m : Memory} (h : WFmemory m) :
    ∃ r s, search_knowledge q m = .ok r ∧ generate_response q r m = .ok s := by
  obtain ⟨r, hr⟩ := search_knowledge_ok (q := q) h
  obtain ⟨hpp, hff, hpp2, hcc, -⟩ := search_knowledge_inv hr
  have sp := (productsPart_sublist hpp).subset
  have sf := (searchFaqs_sublist hff).subset
  have spo := (searchPolicies_sublist hpp2).subset
  have sc := (searchCustom_sublist hcc).subset
  obtain ⟨h1, h2, h3, h4⟩ := h
  obtain ⟨s, hs⟩ := generate_response_ok (q := q) (m := m)
    (fun p hp => h1 p (sp hp)) (fun f hf => h2 f (sf hf))
    (fun p hp => h3 p (spo hp)) (fun k hk => h4 k (sc hk))
  exact ⟨r, s, hr, hs⟩

/-- C2 witness data: a well-formed document that omits every optional
field, so the pipeline's default-substitution is exercised. -/
def memOptC2 : Memory :=
  ⟨[⟨none, some "Hat", some "A blue hat", some 12000, none, none, none⟩],
   [⟨none, some "Do you ship", some "Yes", none⟩],
   [⟨none, some "Returns", some "30 days", none⟩],
   [⟨none, some "Sizing", some "Runs small", none⟩], none⟩

/-- Witness for C2's amended theorem: the pipeline succeeds on a
well-formed document missing all optional fields. -/
theorem c2_no_failure_on_wf_witness :
    ∃ r s, search_knowledge "hat" memOptC2 = .ok r ∧
      generate_response "hat" r memOptC2 = .ok s :=
  c2_no_failure_on_wf (q := "hat") (by decide)

/-! ## Claim C10: empty-word-set queries -/

theorem searchProductsGeneral_nil_words {l : List ProductE}
    (h : ∀ p ∈ l, WFproduct p) : searchProductsGeneral [] [] l = .ok [] := by
  induction l with
  | nil => rfl
  | cons p ps ih =>
    obtain ⟨t, ht⟩ := productText_ok (h p (by simp)).1 (h p (by simp)).2.1
    unfold searchProductsGeneral
    rw [ht, ih fun x hx => h x (by simp [hx])]
    simp [wordsInter]

theorem searchFaqs_nil_words {l : List FAQE}
    (h : ∀ f ∈ l, WFfaq f) : searchFaqs [] [] l = .ok [] := by
  induction l with
  | nil => rfl
  | cons f fs ih =>
    obtain ⟨t, ht⟩ := faqText_ok (h f (by simp)).1 (h f (by simp)).2
    unfold searchFaqs
    rw [ht, ih fun x hx => h x (by simp [hx])]
    simp [faqCond]

theorem searchPolicies_nil_words {l : List PolicyE}
    (h : ∀ p ∈ l, WFpolicy p) : searchPolicies [] [] l = .ok [] := by
  induction l with
  | nil => rfl
  | cons p ps ih =>
    obtain ⟨t, ht⟩ := policyText_ok (h p (by simp)).1 (h p (by simp)).2
    unfold searchPolicies
    rw [ht, ih fun x hx => h x (by simp [hx])]
    simp [policyCond]

theorem searchCustom_nil_words {l : List CustomE}
    (h : ∀ k ∈ l, WFcustom k) : searchCustom [] l = .ok [] := by
  induction l with
  | nil => rfl
  | cons k ks ih =>
    obtain ⟨t, ht⟩ := customText_ok (h k (by simp)).1 (h k (by simp)).2
    unfold searchCustom
    rw [ht, ih fun x hx => h x (by simp [hx])]
    simp

/-- C10 counterexample data: a document holding a product without a
`name` key. -/
def memBadC10 : Memory :=
  ⟨[⟨none, none, some "desc only", none, none, none, none⟩], [], [], [], none⟩

/-- C10 (counterexample): for a punctuation-only query (empty word set)
on a document with a malformed product, the pipeline raises (the product
loop still builds each product's searchable text, and `product['name']`
is missing) instead of returning the global fallback message. -/
theorem c10_empty_query_error_cex :
    query_words "!?" = [] ∧ search_knowledge "!?" memBadC10 = .error () :=
  ⟨by decide, rfl⟩

/-- C10 (amended): on documents whose entries carry their required fields,
a query with an empty word set matches nothing (no products, FAQs,
policies, custom entries, no store info, no greeting) and the composer
returns the global fallback message. -/
theorem c10_empty_query_fallback {q : String} {m : Memory} (hwf : WFmemory m)
    (hq : query_words q = []) :
    search_knowledge q m = .ok ⟨[], [], [], [], none⟩ ∧
    generate_response q ⟨[], [], [], [], none⟩ m =
      .ok (joinLines (fallbackLines m)) := by
  obtain ⟨h1, h2, h3, h4⟩ := hwf
  have hmw : meaningful_words q = [] := by
    unfold meaningful_words
    rw [hq]
    rfl
  constructor
  · have hpp : productsPart q m = .ok [] := by
      unfold productsPart
      rw [hq, hmw]
      simp only [wordsInter, List.any_nil, Bool.false_eq_true, if_false]
      exact searchProductsGeneral_nil_words h1
    have hfq : searchFaqs (meaningful_words q) (query_words q) m.faqs = .ok [] := by
      rw [hq, hmw]
      exact searchFaqs_nil_words h2
    have hpo : searchPolicies (meaningful_words q) (query_words q) m.policies = .ok [] := by
      rw [hq, hmw]
      exact searchPolicies_nil_words h3
    have hck : searchCustom (meaningful_words q) m.custom_knowledge = .ok [] := by
      rw [hmw]
      exact searchCustom_nil_words h4
    have hsp : storePart q m = none := by
      unfold storePart
      rw [hq]
      simp [wordsInter]
    unfold search_knowledge
    rw [hpp, hfq, hpo, hck, hsp]
  · have hg : (wordsInter (query_words q) composer_greeting_words &&
        !(wordsInter (query_words q) non_greeting_keywords)) = false := by
      rw [hq]
      simp [wordsInter]
    simp [generate_response, hg, productSection, faqSection, policySection,
      customSection, storeSection, siTruthy]

/-- Witness for C10's amended theorem: a punctuation-only query on the
three-product document returns the fallback. -/
theorem c10_empty_query_fallback_witness :
    search_knowledge "?!" memC3 = .ok ⟨[], [], [], [], none⟩ ∧
    generate_response "?!" ⟨[], [], [], [], none⟩ memC3 =
      .ok (joinLines (fallbackLines memC3)) :=
  c10_empty_query_fallback (by decide) (by decide)

/-! ## Claim C7: purity of the pipeline.
`search_knowledge` and `generate_response` only build the local `results`
dict and `response_parts` list; no statement assigns to `memory` or any of
its lists/fields.  `answerSt` threads the document through the pipeline as
state, returning it alongside the reply as the post-state. -/

/-- The chat pipeline (the `/api/chat` handler body, lines 277-281, minus
persistence): search, then compose. -/
def answer (q : String) (m : Memory) : Exc String :=
  match search_knowledge q m with
  | .error e => .error e
  | .ok r => generate_response q r m

/-- The pipeline with the knowledge document threaded as explicit state:
each phase reads the document and passes it on unchanged, mirroring that
no statement of either source function writes to `memory`. -/
def answerSt (q : String) (m : Memory) : Exc (String × Memory) :=
  match search_knowledge q m with
  | .error e => .error e
  | .ok r =>
    match generate_response q r m with
    | .error e => .error e
    | .ok s => .ok (s, m)

/-- C7 (confirmed): one invocation of the pipeline leaves the document
unchanged, and invoking it again on the resulting document reproduces the
same reply and the same document — the pipeline is a pure function of
(query, document). -/
theorem c7_pipeline_pure {q : String} {m m2 : Memory} {s : String}
    (h : answerSt q m = .ok (s, m2)) :
    m2 = m ∧ answerSt q m2 = .ok (s, m2) ∧ answer q m = .ok s := by
  unfold answerSt at h
  cases hr : search_knowledge q m with
  | error e => rw [hr] at h; exact absurd h (by simp)
  | ok r =>
    rw [hr] at h
    dsimp only at h
    cases hg : generate_response q r m with
    | error e => rw [hg] at h; exact absurd h (by simp)
    | ok s2 =>
      rw [hg] at h
      simp only [Except.ok.injEq, Prod.mk.injEq] at h
      obtain ⟨hs, hm⟩ := h
      subst hs
      subst hm
      refine ⟨rfl, ?_, ?_⟩
      · unfold answerSt
        rw [hr]
        dsimp only
        rw [hg]
      · unfold answer
        rw [hr]
        dsimp only
        exact hg

/-- Witness for C7: the pipeline on the query "hi" and the Acme document
returns the canned greeting and the unchanged document, twice. -/
theorem c7_pipeline_pure_witness :
    memC1 = memC1 ∧
    answerSt "hi" memC1 = .ok (joinLines (greetingLines "Acme"), memC1) ∧
    answer "hi" memC1 = .ok (joinLines (greetingLines "Acme")) :=
  c7_pipeline_pure (q := "hi") rfl

/-! ## Claim C8: entry ids (CRUD layer, lines 93-94, 301-311, 339-349).
`generate_id()` returns a wall-clock timestamp string; it is modelled as a
parameter `newId`, with freshness (`generate_id` never repeating an
existing id) as a hypothesis. -/

/-- `update_product` (lines 301-311): find the first entry whose `id`
equals the path id, replace it with the payload carrying the path id. -/
def update_product (pid : String) (prod : ProductE) :
    List ProductE → Exc (Option (List ProductE × ProductE))
  | [] => .ok none
  | p :: ps =>
    match p.id with
    | none => .error ()
    | some i =>
      if i = pid then
        .ok (some (({ prod with id := some pid } : ProductE) :: ps,
          { prod with id := some pid }))
      else
        match update_product pid prod ps with
        | .error e => .error e
        | .ok none => .ok none
        | .ok (some (l, d)) => .ok (some (p :: l, d))

/-- `update_faq` (lines 339-349), identical shape. -/
def update_faq (fid : String) (fq : FAQE) :
    List FAQE → Exc (Option (List FAQE × FAQE))
  | [] => .ok none
  | f :: fs =>
    match f.id with
    | none => .error ()
    | some i =>
      if i = fid then
        .ok (some (({ fq with id := some fid } : FAQE) :: fs,
          { fq with id := some fid }))
      else
        match update_faq fid fq fs with
        | .error e => .error e
        | .ok none => .ok none
        | .ok (some (l, d)) => .ok (some (f :: l, d))

/-- `add_product` (lines 291-298): the payload is stored with the freshly
generated id appended to the list. -/
def add_product (newId : String) (prod : ProductE) (l : List ProductE) :
    List ProductE × ProductE :=
  (l ++ [{ prod with id := some newId }], { prod with id := some newId })

theorem update_product_id {pid : String} {prod : ProductE}
    {l l' : List ProductE} {d : ProductE}
    (h : update_product pid prod l = .ok (some (l', d))) :
    d.id = some pid ∧ (l'.map fun p => p.id) = (l.map fun p => p.id) := by
  induction l generalizing l' with
  | nil => simp [update_product] at h
  | cons p ps ih =>
    unfold update_product at h
    cases hip : p.id with
    | none => rw [hip] at h; exact absurd h (by simp)
    | some i =>
      rw [hip] at h
      dsimp only at h
      by_cases heq : i = pid
      · rw [if_pos heq] at h
        simp only [Except.ok.injEq, Option.some.injEq, Prod.mk.injEq] at h
        obtain ⟨hl, hd⟩ := h
        subst hl
        subst hd
        exact ⟨rfl, by simp [hip, heq]⟩
      · rw [if_neg heq] at h
        cases hr : update_product pid prod ps with
        | error e => rw [hr] at h; exact absurd h (by simp)
        | ok o =>
          rw [hr] at h
          cases o with
          | none => simp at h
          | some pr =>
            obtain ⟨l2, d2⟩ := pr
            simp only [Except.ok.injEq, Option.some.injEq, Prod.mk.injEq] at h
            obtain ⟨hl, hd⟩ := h
            subst hl
            subst hd
            obtain ⟨hdid, hmap⟩ := ih hr
            exact ⟨hdid, by simp [hmap]⟩

theorem update_faq_id {fid : String} {fq : FAQE} {l l' : List FAQE} {d : FAQE}
    (h : update_faq fid fq l = .ok (some (l', d))) :
    d.id = some fid ∧ (l'.map fun f => f.id) = (l.map fun f => f.id) := by
  induction l generalizing l' with
  | nil => simp [update_faq] at h
  | cons f fs ih =>
    unfold update_faq at h
    cases hif : f.id with
    | none => rw [hif] at h; exact absurd h (by simp)
    | some i =>
      rw [hif] at h
      dsimp only at h
      by_cases heq : i = fid
      · rw [if_pos heq] at h
        simp only [Except.ok.injEq, Option.some.injEq, Prod.mk.injEq] at h
        obtain ⟨hl, hd⟩ := h
        subst hl
        subst hd
        exact ⟨rfl, by simp [hif, heq]⟩
      · rw [if_neg heq] at h
        cases hr : update_faq fid fq fs with
        | error e => rw [hr] at h; exact absurd h (by simp)
        | ok o =>
          rw [hr] at h
          cases o with
          | none => simp at h
          | some pr =>
            obtain ⟨l2, d2⟩ := pr
            simp only [Except.ok.injEq, Option.some.injEq, Prod.mk.injEq] at h
            obtain ⟨hl, hd⟩ := h
            subst hl
            subst hd
            obtain ⟨hdid, hmap⟩ := ih hr
            exact ⟨hdid, by simp [hmap]⟩

/-- C8 (confirmed): updating an entry by id stores the payload under the
id from the request path (any id in the payload is overwritten), the
category's id sequence is unchanged (so uniqueness of ids is preserved by
update), and creation with a fresh generated id preserves uniqueness. -/
theorem c8_id_invariants :
    (∀ (pid : String) (prod : ProductE) (l l' : List ProductE) (d : ProductE),
      update_product pid prod l = .ok (some (l', d)) →
      d.id = some pid ∧ (l'.map fun p => p.id) = (l.map fun p => p.id) ∧
      ((l.map fun p => p.id).Nodup → (l'.map fun p => p.id).Nodup)) ∧
    (∀ (fid : String) (fq : FAQE) (l l' : List FAQE) (d : FAQE),
      update_faq fid fq l = .ok (some (l', d)) →
      d.id = some fid ∧ (l'.map fun f => f.id) = (l.map fun f => f.id) ∧
      ((l.map fun f => f.id).Nodup → (l'.map fun f => f.id).Nodup)) ∧
    (∀ (newId : String) (prod : ProductE) (l : List ProductE),
      (∀ p ∈ l, p.id ≠ some newId) → (l.map fun p => p.id).Nodup →
      ((add_product newId prod l).1.map fun p => p.id).Nodup ∧
      (add_product newId prod l).2.id = some newId) := by
  refine ⟨?_, ?_, ?_⟩
  · intro pid prod l l' d h
    obtain ⟨hdid, hmap⟩ := update_product_id h
    exact ⟨hdid, hmap, fun hnd => hmap ▸ hnd⟩
  · intro fid fq l l' d h
    obtain ⟨hdid, hmap⟩ := update_faq_id h
    exact ⟨hdid, hmap, fun hnd => hmap ▸ hnd⟩
  · intro newId prod l hfresh hnd
    refine ⟨?_, rfl⟩
    simp only [add_product, List.map_append, List.map_cons, List.map_nil]
    rw [List.nodup_append]
    refine ⟨hnd, by simp, ?_⟩
    intro a ha hb
    simp only [List.mem_singleton] at hb
    subst hb
    obtain ⟨p, hp, hpid⟩ := List.mem_map.mp ha
    exact hfresh p hp hpid

/-- C8 witness data: an update whose payload carries a different id. -/
def updPayloadC8 : ProductE :=
  ⟨some "999", some "New", some "New desc", some 100, none, none, none⟩

def prodListC8 : List ProductE :=
  [⟨some "7", some "Mug", some "Old", some 1, none, none, none⟩]

def updOutC8 : ProductE :=
  ⟨some "7", some "New", some "New desc", some 100, none, none, none⟩

/-- Witness for C8: updating product "7" with a payload claiming id "999"
stores the entry under id "7" and keeps the id sequence unchanged. -/
theorem c8_id_invariants_witness :
    updOutC8.id = some "7" ∧
    ([updOutC8].map fun p => p.id) = (prodListC8.map fun p => p.id) ∧
    ((prodListC8.map fun p => p.id).Nodup → ([updOutC8].map fun p => p.id).Nodup) :=
  c8_id_invariants.1 "7" updPayloadC8 prodListC8 [updOutC8] updOutC8 rfl

end MadishaAgent
